import Mathlib

/-!
Verification of the embbridge request/response protocol plane.

This file is a shallow embedding of the protocol-relevant parts of the
embbridge repository: the agent's hand-rolled MessagePack writer and reader
(`agent/src/protocol.c`), the response-builder writer and argument parsers of
the command helpers, the request dispatch loop, the agent handshake and
session loop (`agent/src/main.c`), the streaming file-transfer handlers
(`agent/src/commands/file_transfer.c`), the `cd` handler
(`agent/src/commands/basic_commands.c`), and the Go client protocol facade
(package `protocol`: handshake validation, request id allocation, `Pull` and
`Push`).

Bytes on the wire are modelled as `Nat` values; every encoder below only ever
produces values below 256 (C `uint8_t`), and big-endian assembly of such
bytes with shifts and bitwise or, as written in the C source, coincides with
the `hi * 256 + lo` arithmetic used here.  Machine-integer casts in the
source (`(uint8_t)v`, `(uint16_t)v`, `(uint32_t)v`) are rendered as explicit
`% 2 ^ w` reductions.  External collaborators (the TCP transport, the
filesystem, the Go msgpack library) appear as explicit inputs: a received
frame is a `List Nat`, a decoded Go message is a structure value, filesystem
behaviour is a record of query functions.
-/

namespace Embbridge

/-! ## Byte-level helpers -/

/-- Big-endian bytes of a 16-bit value, as written by `mp_write_u16be` /
`rb_u16be` (the `(uint16_t)` cast of the source is absorbed by the per-byte
`% 256` reductions). -/
def u16beBytes (v : Nat) : List Nat :=
  [v / 2 ^ 8 % 256, v % 256]

/-- Big-endian bytes of a 32-bit value, as written by `mp_write_u32be` /
`rb_u32be`. -/
def u32beBytes (v : Nat) : List Nat :=
  [v / 2 ^ 24 % 256, v / 2 ^ 16 % 256, v / 2 ^ 8 % 256, v % 256]

/-- Consume exactly `n` bytes: the bounds-checked slice pattern
`if (r->pos + len > r->len) return -1` of the C readers. -/
def takeExact (n : Nat) (l : List Nat) : Option (List Nat × List Nat) :=
  if n ≤ l.length then some (l.take n, l.drop n) else none

/-! ## ASCII byte constants for the wire keys and literals -/

/-- "type" -/
def bType : List Nat := [0x74, 0x79, 0x70, 0x65]

/-- "id" -/
def bId : List Nat := [0x69, 0x64]

/-- "cmd" -/
def bCmd : List Nat := [0x63, 0x6d, 0x64]

/-- "args" -/
def bArgs : List Nat := [0x61, 0x72, 0x67, 0x73]

/-- "req" -/
def bReq : List Nat := [0x72, 0x65, 0x71]

/-- "data" -/
def bData : List Nat := [0x64, 0x61, 0x74, 0x61]

/-- "seq" -/
def bSeq : List Nat := [0x73, 0x65, 0x71]

/-- "done" -/
def bDone : List Nat := [0x64, 0x6f, 0x6e, 0x65]

/-- "pwd" -/
def bPwd : List Nat := [0x70, 0x77, 0x64]

/-- "size" -/
def bSize : List Nat := [0x73, 0x69, 0x7a, 0x65]

/-- "mode" -/
def bMode : List Nat := [0x6d, 0x6f, 0x64, 0x65]

/-! ## Agent MessagePack writer (`agent/src/protocol.c`) -/

/-- `mp_write_uint` (protocol.c): positive fixint for 0..=0x7f, then
uint8 / uint16 / uint32 / uint64 by magnitude.  In the uint64 branch the C
source writes `(uint32_t)(val >> 32)` then `(uint32_t)val`. -/
def mp_write_uint (val : Nat) : List Nat :=
  if val ≤ 0x7f then [val]
  else if val ≤ 0xff then [0xcc, val]
  else if val ≤ 0xffff then 0xcd :: u16beBytes val
  else if val ≤ 0xffffffff then 0xce :: u32beBytes val
  else 0xcf :: (u32beBytes (val / 2 ^ 32) ++ u32beBytes val)

/-- `mp_write_str` (protocol.c), on the raw bytes of the C string:
fixstr / str8 / str16 / str32 by length. -/
def mp_write_str (s : List Nat) : List Nat :=
  if s.length ≤ 31 then (0xa0 + s.length) :: s
  else if s.length ≤ 0xff then 0xd9 :: s.length :: s
  else if s.length ≤ 0xffff then 0xda :: (u16beBytes s.length ++ s)
  else 0xdb :: (u32beBytes s.length ++ s)

/-- `mp_write_bool` (protocol.c). -/
def mp_write_bool (b : Bool) : List Nat :=
  [if b then 0xc3 else 0xc2]

/-- `mp_write_bin` (protocol.c): bin8 / bin16 / bin32 by length. -/
def mp_write_bin (d : List Nat) : List Nat :=
  if d.length ≤ 0xff then 0xc4 :: d.length :: d
  else if d.length ≤ 0xffff then 0xc5 :: (u16beBytes d.length ++ d)
  else 0xc6 :: (u32beBytes d.length ++ d)

/-- `mp_write_map` header (protocol.c): fixmap / map16 / map32 by count. -/
def mp_write_map (count : Nat) : List Nat :=
  if count ≤ 15 then [0x80 + count]
  else if count ≤ 0xffff then 0xde :: u16beBytes count
  else 0xdf :: u32beBytes count

/-- Fixstr encoding of a short string, the shape the agent emits for every
key it writes (valid for `s.length ≤ 31`). -/
def fixstrOf (s : List Nat) : List Nat :=
  (0xa0 + s.length) :: s

/-! ## Response-builder writer (`commands/helpers`, src/unnamed/part_008) -/

/-- `rb_uint` (command helpers): positive fixint, uint8, uint16, then — with
no uint64 branch — everything else is written as uint32 via the
`(uint32_t)v` cast. -/
def rb_uint (v : Nat) : List Nat :=
  if v ≤ 0x7f then [v]
  else if v ≤ 0xff then [0xcc, v]
  else if v ≤ 0xffff then 0xcd :: u16beBytes v
  else 0xce :: u32beBytes v

/-! ## Agent MessagePack reader (`agent/src/protocol.c`) -/

/-- `mp_read_uint` (protocol.c): accepts positive fixint, uint8, uint16,
uint32 and uint64 markers; returns the value and the remaining input.
The C source assembles multi-byte values with shift-and-or over `uint8_t`
bytes, written here as the equivalent base-256 arithmetic. -/
def mp_read_uint (input : List Nat) : Option (Nat × List Nat) :=
  match input with
  | [] => none
  | marker :: rest =>
    if marker ≤ 0x7f then some (marker, rest)
    else if marker = 0xcc then
      match rest with
      | b :: r => some (b, r)
      | [] => none
    else if marker = 0xcd then
      match rest with
      | b1 :: b2 :: r => some (b1 * 2 ^ 8 + b2, r)
      | _ => none
    else if marker = 0xce then
      match rest with
      | b1 :: b2 :: b3 :: b4 :: r =>
          some (b1 * 2 ^ 24 + b2 * 2 ^ 16 + b3 * 2 ^ 8 + b4, r)
      | _ => none
    else if marker = 0xcf then
      match rest with
      | b1 :: b2 :: b3 :: b4 :: b5 :: b6 :: b7 :: b8 :: r =>
          some ((b1 * 2 ^ 24 + b2 * 2 ^ 16 + b3 * 2 ^ 8 + b4) * 2 ^ 32
                + (b5 * 2 ^ 24 + b6 * 2 ^ 16 + b7 * 2 ^ 8 + b8), r)
      | _ => none
    else none

/-- `mp_read_str` (protocol.c): fixstr (`(marker & 0xe0) == 0xa0`, i.e.
0xa0..0xbf, length `marker & 0x1f`), str8, str16, str32. -/
def mp_read_str (input : List Nat) : Option (List Nat × List Nat) :=
  match input with
  | [] => none
  | marker :: rest =>
    if 0xa0 ≤ marker ∧ marker ≤ 0xbf then takeExact (marker - 0xa0) rest
    else if marker = 0xd9 then
      match rest with
      | l :: r => takeExact l r
      | [] => none
    else if marker = 0xda then
      match rest with
      | l1 :: l2 :: r => takeExact (l1 * 2 ^ 8 + l2) r
      | _ => none
    else if marker = 0xdb then
      match rest with
      | l1 :: l2 :: l3 :: l4 :: r =>
          takeExact (l1 * 2 ^ 24 + l2 * 2 ^ 16 + l3 * 2 ^ 8 + l4) r
      | _ => none
    else none

/-- `mp_read_map` (protocol.c): fixmap (`(marker & 0xf0) == 0x80`, i.e.
0x80..0x8f, count `marker & 0x0f`), map16, map32. -/
def mp_read_map (input : List Nat) : Option (Nat × List Nat) :=
  match input with
  | [] => none
  | marker :: rest =>
    if 0x80 ≤ marker ∧ marker ≤ 0x8f then some (marker - 0x80, rest)
    else if marker = 0xde then
      match rest with
      | c1 :: c2 :: r => some (c1 * 2 ^ 8 + c2, r)
      | _ => none
    else if marker = 0xdf then
      match rest with
      | c1 :: c2 :: c3 :: c4 :: r =>
          some (c1 * 2 ^ 24 + c2 * 2 ^ 16 + c3 * 2 ^ 8 + c4, r)
      | _ => none
    else none

/-! ## Request decoding and dispatch (`handle_request`, protocol.c) -/

/-- Outcome of `handle_request`: either an error Response is sent
(`proto_send_error(conn, id, msg)`) or the request is dispatched to a
command handler (`cmd_handle(conn, id, cmd, args, args_len)`). -/
inductive HRResult where
  | sendError (id : Nat) (err : String)
  | dispatch (id : Nat) (cmd : List Nat) (args : List Nat)
deriving DecidableEq

/-- The field accumulator of `handle_request`: `type_str`, `id`, `cmd_str`
and the saved `args` region (`args_start` / `args_len`), with the same
initial values as the C locals. -/
structure HRFields where
  typeF : Option (List Nat)
  idF : Nat
  cmdF : Option (List Nat)
  argsF : List Nat
deriving DecidableEq

/-- The key-iteration loop of `handle_request`.  A recognized key decodes
its expected value type; the `args` key captures the rest of the buffer
(`args_len = msg_len - r.pos; r.pos = msg_len`); an unrecognized key is
answered with the error `"unknown field"` (the source comments
`Skip unknown field - for now just fail`). -/
def hrLoop : Nat → List Nat → HRFields → Except (Nat × String) HRFields
  | 0, _, f => .ok f
  | n + 1, input, f =>
    match mp_read_str input with
    | none => .error (0, "invalid message format")
    | some (key, rest) =>
      if key = bType then
        match mp_read_str rest with
        | none => .error (0, "invalid type field")
        | some (t, rest2) => hrLoop n rest2 ⟨some t, f.idF, f.cmdF, f.argsF⟩
      else if key = bId then
        match mp_read_uint rest with
        | none => .error (0, "invalid id field")
        | some (v, rest2) => hrLoop n rest2 ⟨f.typeF, v, f.cmdF, f.argsF⟩
      else if key = bCmd then
        match mp_read_str rest with
        | none => .error (0, "invalid cmd field")
        | some (c, rest2) => hrLoop n rest2 ⟨f.typeF, f.idF, some c, f.argsF⟩
      else if key = bArgs then
        hrLoop n [] ⟨f.typeF, f.idF, f.cmdF, rest⟩
      else
        .error (f.idF % 2 ^ 32, "unknown field")

/-- `handle_request` (protocol.c): read the outer map header, run the key
loop, then validate `type == "req"`, the presence of `cmd` and
`cmd_len < 64`, and dispatch.  The `id` local is a `uint64_t`; it is
narrowed with `(uint32_t)id` wherever it is used. -/
def handle_request (msg : List Nat) : HRResult :=
  match mp_read_map msg with
  | none => .sendError 0 "invalid message format"
  | some (mapCount, rest) =>
    match hrLoop mapCount rest ⟨none, 0, none, []⟩ with
    | .error (i, e) => .sendError i e
    | .ok f =>
      if f.typeF ≠ some bReq then .sendError (f.idF % 2 ^ 32) "expected request"
      else
        match f.cmdF with
        | none => .sendError (f.idF % 2 ^ 32) "missing command"
        | some c =>
          if 64 ≤ c.length then .sendError (f.idF % 2 ^ 32) "command too long"
          else .dispatch (f.idF % 2 ^ 32) c f.argsF

/-- The receive loop of `run_session` (main.c), applied to the frames the
transport delivers successfully, in order.  The source logs a failed
`handle_request` and continues the loop; it only leaves the loop when
`proto_recv` fails, so every delivered frame is handled. -/
def run_session_loop : List (List Nat) → List HRResult
  | [] => []
  | m :: rest => handle_request m :: run_session_loop rest

/-! ## Agent handshake (`do_handshake`, main.c) -/

/-- Result of the agent handshake. -/
inductive HandshakeOutcome where
  | ok
  | failed
deriving DecidableEq

/-- `do_handshake` in bind mode (`MODE_LISTEN`): receive a frame (`none`
models a `proto_recv` failure), then send `hello_ack`.  The received payload
is freed without being inspected — the source carries a
`TODO: Validate hello` comment in place of any check. -/
def do_handshake_bind (received : Option (List Nat)) : HandshakeOutcome :=
  match received with
  | none => .failed
  | some _msg => .ok

/-- `do_handshake` in reverse mode (`MODE_CONNECT`): send `hello`, then
receive a frame.  The received payload is freed without being inspected —
the source carries a `TODO: Validate hello_ack` comment in place of any
check. -/
def do_handshake_connect (received : Option (List Nat)) : HandshakeOutcome :=
  match received with
  | none => .failed
  | some _msg => .ok

/-! ## Go client protocol facade (package `protocol`, src/unnamed/part_000) -/

/-- Go `HelloMsg`. -/
structure HelloMsg where
  typeF : String
  version : Int
  isAgent : Bool
deriving DecidableEq

/-- Go `HelloAckMsg`. -/
structure HelloAckMsg where
  typeF : String
  version : Int
  isAgent : Bool
deriving DecidableEq

/-- Go `Protocol.RecvHello`, applied to the message the msgpack library
decoded: fails unless the `type` field is the literal `"hello"`. -/
def RecvHello (m : HelloMsg) : Except String HelloMsg :=
  if m.typeF ≠ "hello" then .error ("expected hello, got " ++ m.typeF)
  else .ok m

/-- Go `Protocol.RecvHelloAck`: fails unless the `type` field is the
literal `"hello_ack"`. -/
def RecvHelloAck (m : HelloAckMsg) : Except String HelloAckMsg :=
  if m.typeF ≠ "hello_ack" then .error ("expected hello_ack, got " ++ m.typeF)
  else .ok m

/-- Go `NextID`: `atomic.AddUint32(&p.nextID, 1)` — increment the 32-bit
counter and return the new value. -/
def NextID_step (s : Nat) : Nat :=
  (s + 1) % 2 ^ 32

/-- The value of the client's `nextID` counter after `n` calls of `NextID`
on a `Protocol` made by `New` (which sets `nextID: 1`).  For `n ≥ 1` this is
also the id returned by the `n`-th call, hence the id carried by the `n`-th
request that `SendRequest` emits on the session. -/
def clientIDSeq : Nat → Nat
  | 0 => 1
  | n + 1 => NextID_step (clientIDSeq n)

/-! ## Streaming transfers -/

/-- The chunk size used by both sides: Go `DefaultChunk` and C
`EDB_CHUNK_SIZE` are both 64 KiB. -/
def chunkSize : Nat := 64 * 1024

/-- A Data message at field level: Go `DataMsg` and the fields the agent's
`proto_send_data` writes.  `id` and `seq` are `uint32` on both sides; the
stored `seq` is the 32-bit value of the producer's counter. -/
structure DataMsg where
  typeF : String
  idF : Nat
  seqF : Nat
  dataF : List Nat
  doneF : Bool
deriving DecidableEq

/-- Default element used with `List.getD` when indexing frame lists. -/
def dfltMsg : DataMsg := ⟨"", 0, 0, [], false⟩

/-- The chunking loop of Go `Protocol.Push` after the OK response: while
`transferred < total`, send `data[transferred:end]` with
`end = min(transferred + DefaultChunk, total)`, `done = end >= total`, and
`seq++` (a `uint32`). -/
def pushChunks (id : Nat) (data : List Nat) (transferred seq : Nat) :
    List DataMsg :=
  if transferred < data.length then
    let e := min (transferred + chunkSize) data.length
    let chunk := (data.drop transferred).take (e - transferred)
    let done := decide (data.length ≤ e)
    ⟨"data", id, seq % 2 ^ 32, chunk, done⟩ ::
      pushChunks id data e (seq + 1)
  else []
termination_by data.length - transferred
decreasing_by
  simp only [chunkSize] at *
  omega

/-- The sending loop of the agent's `cmd_pull` after the size/mode response,
for a regular file whose byte content is `content` (so `file_size` is
`content.length` and every `fread` returns the full requested chunk):
while `total_sent < file_size`, read `to_read = min(remaining, 64 KiB)`
bytes, send them with `done = (total_sent + n >= file_size)`, `seq++`. -/
def pullChunks (id : Nat) (content : List Nat) (totalSent seq : Nat) :
    List DataMsg :=
  if totalSent < content.length then
    let n := min (content.length - totalSent) chunkSize
    let chunk := (content.drop totalSent).take n
    let done := decide (content.length ≤ totalSent + n)
    ⟨"data", id, seq % 2 ^ 32, chunk, done⟩ ::
      pullChunks id content (totalSent + n) (seq + 1)
  else []
termination_by content.length - totalSent
decreasing_by
  simp only [chunkSize] at *
  omega

/-- The receive loop of Go `Protocol.Pull`: read Data messages (decoded by
the msgpack library), fail on a non-`"data"` type, append each payload, and
stop at the first `done`.  An exhausted input models a failing `Recv`
(`receive chunk` error). -/
def clientPullLoop : List DataMsg → Except String (List Nat)
  | [] => .error "receive chunk"
  | c :: rest =>
    if c.typeF ≠ "data" then .error ("expected data, got " ++ c.typeF)
    else if c.doneF then .ok c.dataF
    else
      match clientPullLoop rest with
      | .error e => .error e
      | .ok tail => .ok (c.dataF ++ tail)

/-- Go `Response`, with the dynamic `data` map modelled as an association
list of the numeric values the transfer path reads from it. -/
structure GoResponse where
  typeF : String
  idF : Nat
  okF : Bool
  dataF : List (String × Nat)
  errorF : String
deriving DecidableEq

/-- `toInt64(resp.Data[key])`: a missing key yields the `nil` interface,
which `toInt64` maps to 0. -/
def respDataLookup (d : List (String × Nat)) (k : String) : Nat :=
  match d.find? (fun p => p.1 = k) with
  | some p => p.2
  | none => 0

/-- Go `Protocol.Pull` from the initial response on: check the response
(`RecvResponse` requires `type == "resp"`, `Pull` requires `ok`), extract
`size` and `mode` via `toInt64`, then run the chunk loop and return the
accumulated bytes together with the reported size and mode.  No comparison
between the accumulated length and `size` appears in the source. -/
def clientPull (resp : GoResponse) (chunks : List DataMsg) :
    Except String (List Nat × Nat × Nat) :=
  if resp.typeF ≠ "resp" then .error ("expected resp, got " ++ resp.typeF)
  else if resp.okF = false then .error resp.errorF
  else
    let size := respDataLookup resp.dataF "size"
    let mode := respDataLookup resp.dataF "mode"
    match clientPullLoop chunks with
    | .error e => .error e
    | .ok bytes => .ok (bytes, size, mode)

/-! ## Command-helper argument parsing (src/unnamed/part_008) -/

/-- The search loop of `parse_uint_arg`: iterate the key/value pairs of the
args map; keys may be fixstr, str8 or str16; the target value is returned
from any of positive fixint, uint8, uint16, uint32 or uint64; non-target
values of those widths and string values are skipped; any other value
marker aborts with failure. -/
def parse_uint_loop : Nat → List Nat → List Nat → Option Nat
  | 0, _, _ => none
  | n + 1, input, key =>
    match input with
    | [] => none
    | km :: rest =>
      let kread : Option (Nat × List Nat) :=
        if 0xa0 ≤ km ∧ km ≤ 0xbf then some (km - 0xa0, rest)
        else if km = 0xd9 then
          match rest with
          | l :: r => some (l, r)
          | [] => none
        else if km = 0xda then
          match rest with
          | l1 :: l2 :: r => some (l1 * 2 ^ 8 + l2, r)
          | _ => none
        else none
      match kread with
      | none => none
      | some (klen, rest1) =>
        if klen ≤ rest1.length then
          let isTarget := rest1.take klen = key
          match rest1.drop klen with
          | [] => none
          | vm :: r2 =>
            if vm ≤ 0x7f then
              if isTarget then some vm else parse_uint_loop n r2 key
            else if vm = 0xcc then
              match r2 with
              | b :: r3 =>
                if isTarget then some b else parse_uint_loop n r3 key
              | [] => none
            else if vm = 0xcd then
              match r2 with
              | b1 :: b2 :: r3 =>
                if isTarget then some (b1 * 2 ^ 8 + b2)
                else parse_uint_loop n r3 key
              | _ => none
            else if vm = 0xce then
              match r2 with
              | b1 :: b2 :: b3 :: b4 :: r3 =>
                if isTarget then
                  some (b1 * 2 ^ 24 + b2 * 2 ^ 16 + b3 * 2 ^ 8 + b4)
                else parse_uint_loop n r3 key
              | _ => none
            else if vm = 0xcf then
              match r2 with
              | b1 :: b2 :: b3 :: b4 :: b5 :: b6 :: b7 :: b8 :: r3 =>
                if isTarget then
                  some ((b1 * 2 ^ 24 + b2 * 2 ^ 16 + b3 * 2 ^ 8 + b4) * 2 ^ 32
                        + (b5 * 2 ^ 24 + b6 * 2 ^ 16 + b7 * 2 ^ 8 + b8))
                else parse_uint_loop n r3 key
              | _ => none
            else if 0xa0 ≤ vm ∧ vm ≤ 0xbf then
              parse_uint_loop n (r2.drop (vm - 0xa0)) key
            else if vm = 0xd9 then
              match r2 with
              | l :: r3 => parse_uint_loop n (r3.drop l) key
              | [] => none
            else if vm = 0xda then
              match r2 with
              | l1 :: l2 :: r3 =>
                  parse_uint_loop n (r3.drop (l1 * 2 ^ 8 + l2)) key
              | _ => none
            else none
        else none

/-- `parse_uint_arg` (command helpers): the args map header may be fixmap
or map16 — map32 (`0xdf`) is not among the accepted markers and fails.
`none` models the C return value -1, which leaves the caller's `out`
variable untouched. -/
def parse_uint_arg (args : List Nat) (key : List Nat) : Option Nat :=
  match args with
  | [] => none
  | marker :: rest =>
    if 0x80 ≤ marker ∧ marker ≤ 0x8f then
      parse_uint_loop (marker - 0x80) rest key
    else if marker = 0xde then
      match rest with
      | c1 :: c2 :: r => parse_uint_loop (c1 * 2 ^ 8 + c2) r key
      | _ => none
    else none

/-! ## Agent `cmd_push` (file_transfer.c) -/

/-- The `Skip other values` branch of the data-chunk parser in `cmd_push`:
after consuming the value marker `vm`, it advances past the payload only
for positive fixint, false, true, uint8, uint16, uint32, fixstr and str8;
any other marker (nil, uint64, bin, …) falls through all branches and
advances past nothing.  `none` models the str8 bounds check failing
(`goto parse_error`). -/
def push_skip_value (vm : Nat) (rest : List Nat) : Option (List Nat) :=
  if vm ≤ 0x7f ∨ vm = 0xc2 ∨ vm = 0xc3 then some rest
  else if vm = 0xcc then some (rest.drop 1)
  else if vm = 0xcd then some (rest.drop 2)
  else if vm = 0xce then some (rest.drop 4)
  else if 0xa0 ≤ vm ∧ vm ≤ 0xbf then some (rest.drop (vm - 0xa0))
  else if vm = 0xd9 then
    match rest with
    | l :: r => some (r.drop l)
    | [] => none
  else some rest

/-- The key/value loop of the inline data-chunk parser in `cmd_push`:
keys must be fixstr; the `"data"` value must be bin8 / bin16 / bin32 and
replaces the pending chunk; the `"done"` value is one marker byte compared
with `0xc3`; other values go through `push_skip_value`.  Returns the final
chunk (`chunk_data == NULL` becomes the empty chunk: neither is written)
and the `done` flag, or `none` for `goto parse_error`. -/
def pdfLoop : Nat → List Nat → List Nat → Bool → Option (List Nat × Bool)
  | 0, _, chunk, done => some (chunk, done)
  | n + 1, input, chunk, done =>
    match input with
    | [] => none
    | km :: rest =>
      if 0xa0 ≤ km ∧ km ≤ 0xbf then
        let klen := km - 0xa0
        if klen ≤ rest.length then
          let key := rest.take klen
          let rest1 := rest.drop klen
          if key = bData then
            match rest1 with
            | [] => none
            | vm :: r2 =>
              if vm = 0xc4 then
                match r2 with
                | l :: r3 =>
                  if l ≤ r3.length then
                    pdfLoop n (r3.drop l) (r3.take l) done
                  else none
                | [] => none
              else if vm = 0xc5 then
                match r2 with
                | l1 :: l2 :: r3 =>
                  if l1 * 2 ^ 8 + l2 ≤ r3.length then
                    pdfLoop n (r3.drop (l1 * 2 ^ 8 + l2))
                      (r3.take (l1 * 2 ^ 8 + l2)) done
                  else none
                | _ => none
              else if vm = 0xc6 then
                match r2 with
                | l1 :: l2 :: l3 :: l4 :: r3 =>
                  let bl := l1 * 2 ^ 24 + l2 * 2 ^ 16 + l3 * 2 ^ 8 + l4
                  if bl ≤ r3.length then
                    pdfLoop n (r3.drop bl) (r3.take bl) done
                  else none
                | _ => none
              else none
          else if key = bDone then
            match rest1 with
            | [] => none
            | vm :: r2 => pdfLoop n r2 chunk (vm = 0xc3)
          else
            match rest1 with
            | [] => none
            | vm :: r2 =>
              match push_skip_value vm r2 with
              | none => none
              | some r3 => pdfLoop n r3 chunk done
        else none
      else none

/-- The inline data-chunk parser of `cmd_push`: the outer map header is
accepted only as fixmap (`(marker & 0xf0) == 0x80`); map16 and map32
frames take the `goto parse_error` path. -/
def parse_data_frame (msg : List Nat) : Option (List Nat × Bool) :=
  match msg with
  | [] => none
  | marker :: rest =>
    if 0x80 ≤ marker ∧ marker ≤ 0x8f then pdfLoop (marker - 0x80) rest [] false
    else none

/-- Outcome of the receive loop of `cmd_push`, carrying the bytes written
to the destination file so far. -/
inductive PushResult where
  | success (written : List Nat)
  | parseError (written : List Nat)
  | recvFail (written : List Nat)
deriving DecidableEq

/-- The receive loop of `cmd_push` after the initial OK response: for each
received frame, parse it; a parse failure sends the error Response
`"invalid data chunk"`; otherwise the chunk is appended to the file and the
loop ends exactly when the frame carried `done`.  The declared `size`
argument does not occur in the loop. -/
def cmd_push_loop : List (List Nat) → List Nat → PushResult
  | [], acc => .recvFail acc
  | m :: rest, acc =>
    match parse_data_frame m with
    | none => .parseError acc
    | some (chunk, done) =>
      let acc2 := acc ++ chunk
      if done then .success acc2 else cmd_push_loop rest acc2

/-- The `mode` argument handling of `cmd_push`: `file_mode` starts at 0644
and `parse_uint_arg` overwrites it only on success. -/
def cmd_push_mode (args : List Nat) : Nat :=
  match parse_uint_arg args bMode with
  | some v => v
  | none => 0o644

/-- The payload built by the agent's `proto_send_data` (protocol.c):
a fixmap of the five fields `type`, `id`, `seq`, `data`, `done`. -/
def proto_send_data_payload (id seq : Nat) (data : List Nat) (done : Bool) :
    List Nat :=
  mp_write_map 5
    ++ mp_write_str bType ++ mp_write_str bData
    ++ mp_write_str bId ++ mp_write_uint id
    ++ mp_write_str bSeq ++ mp_write_uint seq
    ++ mp_write_str bData ++ mp_write_bin data
    ++ mp_write_str bDone ++ mp_write_bool done

/-! ## Agent `cmd_cd` / `cmd_pwd` (basic_commands.c) -/

/-- `path_resolve` (command helpers): absolute paths pass through, relative
paths are joined to the cwd with a `/` unless the cwd already ends in
one. -/
def path_resolve (cwd path : String) : String :=
  if path.startsWith "/" then path
  else if cwd.endsWith "/" then cwd ++ path
  else cwd ++ "/" ++ path

/-- The filesystem as the `cd` handler consumes it: `stat`-based existence
and directory tests (`path_exists`, `path_is_dir`), `realpath`, and the
`strerror(errno)` text produced when `realpath` fails (never the empty
string for any errno). -/
structure FileSys where
  pathExists : String → Bool
  isDir : String → Bool
  realpathFn : String → Option String
  strerrorMsg : String

/-- Per-connection agent state used by `cd` / `pwd`: the current working
directory `conn->cwd`. -/
structure ConnState where
  cwd : String
deriving DecidableEq

/-- A unary command outcome at field level: an error Response or a success
Response whose data is the single `path` entry both `cd` and `pwd`
build. -/
inductive CmdOut where
  | err (id : Nat) (msg : String)
  | okPath (id : Nat) (path : String)
deriving DecidableEq

/-- `cmd_cd` (basic_commands.c): a missing `path` argument, a nonexistent
target, a non-directory target or a failing `realpath` each answer with an
error Response and leave `conn->cwd` untouched; on success the cwd becomes
the canonicalized path and is echoed back. -/
def cmd_cd (fs : FileSys) (conn : ConnState) (id : Nat)
    (argPath : Option String) : CmdOut × ConnState :=
  match argPath with
  | none => (.err id "missing path argument", conn)
  | some p =>
    let resolved := path_resolve conn.cwd p
    if fs.pathExists resolved = false then
      (.err id "no such directory", conn)
    else if fs.isDir resolved = false then
      (.err id "not a directory", conn)
    else
      match fs.realpathFn resolved with
      | none => (.err id fs.strerrorMsg, conn)
      | some rp => (.okPath id rp, ⟨rp⟩)

/-- `cmd_pwd` (basic_commands.c): a success Response carrying
`conn->cwd`. -/
def cmd_pwd (conn : ConnState) (id : Nat) : CmdOut :=
  .okPath id conn.cwd

/-- A concrete filesystem on which every lookup fails: the environment of
the `cd /does/not/exist` scenario. -/
def testFS : FileSys :=
  ⟨fun _ => false, fun _ => false, fun _ => none, "No such file or directory"⟩

/-! ## Test vectors and the spec-side width table -/

/-- Modelled from the spec (refinement comparator, not source code): the
byte length of the shortest legal MessagePack encoding of an unsigned
integer — positive fixint for 0..=127, then uint8 / uint16 / uint32 /
uint64 by magnitude. -/
def specMinUintLen (v : Nat) : Nat :=
  if v ≤ 0x7f then 1
  else if v ≤ 0xff then 2
  else if v ≤ 0xffff then 3
  else if v ≤ 0xffffffff then 5
  else 9

/-- A well-formed `pwd` Request frame payload with id 7 and empty args
map. -/
def reqPwd : List Nat :=
  0x84 :: (fixstrOf bType ++ fixstrOf bReq ++ fixstrOf bId ++ mp_write_uint 7
    ++ fixstrOf bCmd ++ fixstrOf bPwd ++ fixstrOf bArgs ++ [0x80])

/-- The same `pwd` Request with one additional top-level key `k` (value
nil) inserted before `args`. -/
def reqPwdExtra (k : List Nat) : List Nat :=
  0x85 :: (fixstrOf bType ++ fixstrOf bReq ++ fixstrOf bId ++ mp_write_uint 7
    ++ fixstrOf bCmd ++ fixstrOf bPwd ++ fixstrOf k ++ [0xc0]
    ++ fixstrOf bArgs ++ [0x80])

/-- A handshake frame payload whose `type` field is the literal `"bogus"`
instead of the expected `"hello"` / `"hello_ack"`. -/
def bogusTypeHandshake : List Nat :=
  0x81 :: (fixstrOf bType ++ fixstrOf [0x62, 0x6f, 0x67, 0x75, 0x73])

/-! ## Codec lemmas -/

theorem takeExact_append (l r : List Nat) :
    takeExact l.length (l ++ r) = some (l, r) := by
  simp [takeExact, List.take_left, List.drop_left]

theorem mp_read_uint_write (v : Nat) (rest : List Nat) (hv : v < 2 ^ 64) :
    mp_read_uint (mp_write_uint v ++ rest) = some (v, rest) := by
  unfold mp_write_uint
  split_ifs with h1 h2 h3 h4
  · simp [mp_read_uint, h1]
  · simp only [List.cons_append, List.nil_append, mp_read_uint]
    norm_num
  · simp only [u16beBytes, List.cons_append, List.nil_append, mp_read_uint]
    norm_num
    omega
  · simp only [u32beBytes, List.cons_append, List.nil_append, mp_read_uint]
    norm_num
    omega
  · simp only [u32beBytes, List.cons_append, List.nil_append, List.append_assoc,
      mp_read_uint]
    norm_num
    omega

theorem mp_write_uint_length (v : Nat) :
    (mp_write_uint v).length = specMinUintLen v := by
  unfold mp_write_uint specMinUintLen
  split_ifs <;> simp [u16beBytes, u32beBytes]

theorem rb_uint_eq_mp_write_uint (v : Nat) (hv : v ≤ 0xffffffff) :
    rb_uint v = mp_write_uint v := by
  unfold rb_uint mp_write_uint
  split_ifs with h1 h2 h3
  any_goals rfl

theorem mp_read_str_fixstr (s rest : List Nat) (hs : s.length ≤ 31) :
    mp_read_str (fixstrOf s ++ rest) = some (s, rest) := by
  have h1 : 0xa0 ≤ 0xa0 + s.length ∧ 0xa0 + s.length ≤ 0xbf := by omega
  simp only [fixstrOf, List.cons_append, mp_read_str, h1, and_self, if_pos]
  have h2 : 0xa0 + s.length - 0xa0 = s.length := by omega
  rw [h2, takeExact_append]

theorem mp_read_uint_fixint (v : Nat) (rest : List Nat) (hv : v ≤ 0x7f) :
    mp_read_uint (v :: rest) = some (v, rest) := by
  simp [mp_read_uint, hv]

theorem mp_read_uint_u8 (v : Nat) (rest : List Nat) :
    mp_read_uint (0xcc :: v :: rest) = some (v, rest) := by
  simp [mp_read_uint]

theorem mp_read_uint_u16 (v : Nat) (rest : List Nat) (hv : v < 2 ^ 16) :
    mp_read_uint (0xcd :: (u16beBytes v ++ rest)) = some (v, rest) := by
  simp only [u16beBytes, List.cons_append, List.nil_append, mp_read_uint]
  norm_num
  omega

theorem mp_read_uint_u32 (v : Nat) (rest : List Nat) (hv : v < 2 ^ 32) :
    mp_read_uint (0xce :: (u32beBytes v ++ rest)) = some (v, rest) := by
  simp only [u32beBytes, List.cons_append, List.nil_append, mp_read_uint]
  norm_num
  omega

theorem mp_read_uint_u64 (v : Nat) (rest : List Nat) (hv : v < 2 ^ 64) :
    mp_read_uint (0xcf :: (u32beBytes (v / 2 ^ 32) ++ u32beBytes v ++ rest))
      = some (v, rest) := by
  simp only [u32beBytes, List.cons_append, List.nil_append, List.append_assoc,
    mp_read_uint]
  norm_num
  omega

theorem mp_read_map_fixmap (c : Nat) (rest : List Nat) (hc : c ≤ 15) :
    mp_read_map ((0x80 + c) :: rest) = some (c, rest) := by
  have h1 : 0x80 ≤ 0x80 + c ∧ 0x80 + c ≤ 0x8f := by omega
  simp [mp_read_map, h1]

theorem mp_read_map_map16 (c : Nat) (rest : List Nat) (hc : c < 2 ^ 16) :
    mp_read_map (0xde :: (u16beBytes c ++ rest)) = some (c, rest) := by
  simp only [u16beBytes, List.cons_append, List.nil_append, mp_read_map]
  norm_num
  omega

theorem mp_read_map_map32 (c : Nat) (rest : List Nat) (hc : c < 2 ^ 32) :
    mp_read_map (0xdf :: (u32beBytes c ++ rest)) = some (c, rest) := by
  simp only [u32beBytes, List.cons_append, List.nil_append, mp_read_map]
  norm_num
  omega

/-! ## Transfer and session-loop lemmas -/

theorem pullChunks_eq_pushChunks (id : Nat) (content : List Nat) :
    ∀ n t s, content.length - t ≤ n →
      pullChunks id content t s = pushChunks id content t s := by
  intro n
  induction n with
  | zero =>
    intro t s h
    rw [pullChunks, pushChunks]
    have hnot : ¬ t < content.length := by omega
    simp [hnot]
  | succ n ih =>
    intro t s h
    rw [pullChunks, pushChunks]
    by_cases hlt : t < content.length
    · simp only [if_pos hlt, chunkSize] at *
      have h1 : min (content.length - t) (64 * 1024)
          = min (t + 64 * 1024) content.length - t := by omega
      simp only [h1]
      have h2 : t + (min (t + 64 * 1024) content.length - t)
          = min (t + 64 * 1024) content.length := by omega
      simp only [h2]
      congr 1
      exact ih (min (t + 64 * 1024) content.length) (s + 1) (by omega)
    · simp [hlt]

theorem pushChunks_length (id : Nat) (data : List Nat) :
    ∀ n t s, data.length - t ≤ n →
      (pushChunks id data t s).length
        = (data.length - t + (chunkSize - 1)) / chunkSize := by
  intro n
  induction n with
  | zero =>
    intro t s h
    rw [pushChunks]
    have hnot : ¬ t < data.length := by omega
    simp only [if_neg hnot, List.length_nil, chunkSize]
    omega
  | succ n ih =>
    intro t s h
    rw [pushChunks]
    by_cases hlt : t < data.length
    · simp only [if_pos hlt, List.length_cons]
      rw [ih (min (t + chunkSize) data.length) (s + 1)
        (by simp only [chunkSize] at *; omega)]
      simp only [chunkSize]
      omega
    · simp only [if_neg hlt, List.length_nil, chunkSize]
      omega

theorem pushChunks_len (id : Nat) (data : List Nat) (t s : Nat) :
    (pushChunks id data t s).length
      = (data.length - t + (chunkSize - 1)) / chunkSize :=
  pushChunks_length id data data.length t s (by omega)


theorem pushChunks_seq (id : Nat) (data : List Nat) :
    ∀ n t s, data.length - t ≤ n →
      ∀ i, i < (pushChunks id data t s).length →
        ((pushChunks id data t s).getD i dfltMsg).seqF = (s + i) % 2 ^ 32 := by
  intro n
  induction n with
  | zero =>
    intro t s h i hi
    rw [pushChunks] at hi
    have hnot : ¬ t < data.length := by omega
    simp only [if_neg hnot, List.length_nil] at hi
    omega
  | succ n ih =>
    intro t s h i hi
    rw [pushChunks] at hi ⊢
    by_cases hlt : t < data.length
    · simp only [if_pos hlt, List.length_cons] at hi ⊢
      match i with
      | 0 => simp
      | i + 1 =>
        simp only [List.getD_cons_succ]
        rw [ih (min (t + chunkSize) data.length) (s + 1)
          (by simp only [chunkSize] at *; omega) i (by omega)]
        congr 1
        omega
    · simp only [if_neg hlt, List.length_nil] at hi
      omega

theorem pushChunks_done (id : Nat) (data : List Nat) :
    ∀ n t s, data.length - t ≤ n →
      ∀ i, i < (pushChunks id data t s).length →
        (((pushChunks id data t s).getD i dfltMsg).doneF = true
          ↔ i + 1 = (pushChunks id data t s).length) := by
  intro n
  induction n with
  | zero =>
    intro t s h i hi
    rw [pushChunks] at hi
    have hnot : ¬ t < data.length := by omega
    simp only [if_neg hnot, List.length_nil] at hi
    omega
  | succ n ih =>
    intro t s h i hi
    rw [pushChunks] at hi ⊢
    by_cases hlt : t < data.length
    · simp only [if_pos hlt, List.length_cons] at hi ⊢
      match i with
      | 0 =>
        simp only [List.getD_cons_zero, decide_eq_true_eq]
        rw [pushChunks_len]
        simp only [chunkSize] at *
        omega
      | i + 1 =>
        simp only [List.getD_cons_succ]
        rw [ih (min (t + chunkSize) data.length) (s + 1)
          (by simp only [chunkSize] at *; omega) i (by omega)]
        omega
    · simp only [if_neg hlt, List.length_nil] at hi
      omega

theorem clientPullLoop_spec :
    ∀ (pre : List DataMsg) (last : DataMsg) (junk : List DataMsg),
      (∀ c ∈ pre, c.typeF = "data" ∧ c.doneF = false) →
      last.typeF = "data" → last.doneF = true →
      clientPullLoop (pre ++ last :: junk)
        = .ok ((pre.map (fun c => c.dataF)).flatten ++ last.dataF) := by
  intro pre
  induction pre with
  | nil =>
    intro last junk _ ht hd
    simp [clientPullLoop, ht, hd]
  | cons c pre ih =>
    intro last junk hall ht hd
    have hc := hall c (by simp)
    simp [clientPullLoop, hc.1, hc.2,
      ih last junk (fun x hx => hall x (by simp [hx])) ht hd]

theorem cmd_push_loop_spec :
    ∀ (pre : List (List Nat)) (chunks : List (List Nat)) (lastf lastc : List Nat)
      (junk : List (List Nat)) (acc : List Nat),
      pre.map parse_data_frame = chunks.map (fun c => some (c, false)) →
      parse_data_frame lastf = some (lastc, true) →
      cmd_push_loop (pre ++ lastf :: junk) acc
        = .success ((acc ++ chunks.flatten) ++ lastc) := by
  intro pre
  induction pre with
  | nil =>
    intro chunks lastf lastc junk acc hmap hlast
    have hch : chunks = [] := by
      cases chunks with
      | nil => rfl
      | cons a l => simp at hmap
    subst hch
    simp [cmd_push_loop, hlast]
  | cons f pre ih =>
    intro chunks lastf lastc junk acc hmap hlast
    cases chunks with
    | nil => simp at hmap
    | cons c cs =>
      simp only [List.map_cons, List.cons.injEq] at hmap
      simp only [List.cons_append, cmd_push_loop, hmap.1, Bool.false_eq_true,
        if_false, List.append_eq]
      rw [ih cs lastf lastc junk (acc ++ c) hmap.2 hlast]
      simp [List.append_assoc]


theorem clientIDSeq_closed (n : Nat) : clientIDSeq n = (1 + n) % 2 ^ 32 := by
  induction n with
  | zero => norm_num [clientIDSeq]
  | succ n ih =>
    rw [clientIDSeq, NextID_step, ih, Nat.mod_add_mod]
    omega

/-! ## Claim theorems -/

/-- Claim C1, amended: for every streaming transfer of at least one byte
(agent-side pull of a regular file with content `content`, client-side push
of a byte string `data`; at most `2 ^ 48` bytes, so that the 32-bit `seq`
counter cannot wrap), the produced Data frames are nonempty, their `seq`
values are exactly `0, 1, 2, …` in order, and a frame carries `done = true`
exactly when it is the last frame of the sequence.  (The original claim
also covered empty transfers; see the counterexample.) -/
theorem C1_stream_seq_done (idP idG : Nat) (data content : List Nat)
    (hd0 : 0 < data.length) (hd1 : data.length ≤ 2 ^ 48)
    (hc0 : 0 < content.length) (hc1 : content.length ≤ 2 ^ 48) :
    (pushChunks idG data 0 0 ≠ [] ∧
      (∀ i, i < (pushChunks idG data 0 0).length →
        ((pushChunks idG data 0 0).getD i dfltMsg).seqF = i) ∧
      (∀ i, i < (pushChunks idG data 0 0).length →
        (((pushChunks idG data 0 0).getD i dfltMsg).doneF = true
          ↔ i + 1 = (pushChunks idG data 0 0).length))) ∧
    (pullChunks idP content 0 0 ≠ [] ∧
      (∀ i, i < (pullChunks idP content 0 0).length →
        ((pullChunks idP content 0 0).getD i dfltMsg).seqF = i) ∧
      (∀ i, i < (pullChunks idP content 0 0).length →
        (((pullChunks idP content 0 0).getD i dfltMsg).doneF = true
          ↔ i + 1 = (pullChunks idP content 0 0).length))) := by
  have key : ∀ (id : Nat) (l : List Nat), 0 < l.length → l.length ≤ 2 ^ 48 →
      pushChunks id l 0 0 ≠ [] ∧
      (∀ i, i < (pushChunks id l 0 0).length →
        ((pushChunks id l 0 0).getD i dfltMsg).seqF = i) ∧
      (∀ i, i < (pushChunks id l 0 0).length →
        (((pushChunks id l 0 0).getD i dfltMsg).doneF = true
          ↔ i + 1 = (pushChunks id l 0 0).length)) := by
    intro id l h0 h1
    have hlen := pushChunks_len id l 0 0
    refine ⟨?_, ?_, ?_⟩
    · intro hnil
      rw [hnil] at hlen
      simp only [List.length_nil, chunkSize] at hlen
      omega
    · intro i hi
      have hs := pushChunks_seq id l l.length 0 0 (by omega) i hi
      rw [hs]
      rw [hlen] at hi
      simp only [chunkSize] at hi
      omega
    · intro i hi
      exact pushChunks_done id l l.length 0 0 (by omega) i hi
  refine ⟨key idG data hd0 hd1, ?_⟩
  have heq := pullChunks_eq_pushChunks idP content content.length 0 0 (by omega)
  rw [heq]
  exact key idP content hc0 hc1

/-- Witness for C1: the three-byte push and the one-byte pull satisfy the
stated seq/done discipline. -/
theorem C1_witness :
    (0 < ([1, 2, 3] : List Nat).length ∧ ([1, 2, 3] : List Nat).length ≤ 2 ^ 48
      ∧ 0 < ([7] : List Nat).length ∧ ([7] : List Nat).length ≤ 2 ^ 48) ∧
    ((pushChunks 9 [1, 2, 3] 0 0 ≠ [] ∧
      (∀ i, i < (pushChunks 9 [1, 2, 3] 0 0).length →
        ((pushChunks 9 [1, 2, 3] 0 0).getD i dfltMsg).seqF = i) ∧
      (∀ i, i < (pushChunks 9 [1, 2, 3] 0 0).length →
        (((pushChunks 9 [1, 2, 3] 0 0).getD i dfltMsg).doneF = true
          ↔ i + 1 = (pushChunks 9 [1, 2, 3] 0 0).length))) ∧
    (pullChunks 4 [7] 0 0 ≠ [] ∧
      (∀ i, i < (pullChunks 4 [7] 0 0).length →
        ((pullChunks 4 [7] 0 0).getD i dfltMsg).seqF = i) ∧
      (∀ i, i < (pullChunks 4 [7] 0 0).length →
        (((pullChunks 4 [7] 0 0).getD i dfltMsg).doneF = true
          ↔ i + 1 = (pullChunks 4 [7] 0 0).length)))) :=
  ⟨⟨by decide, by decide, by decide, by decide⟩,
    C1_stream_seq_done 4 9 [1, 2, 3] [7] (by decide) (by decide) (by decide)
      (by decide)⟩

/-- Counterexample for C1 as stated: a zero-length transfer (`N = 0`)
produces no Data frames at all on either side, so no frame of the sequence
carries `done = true`. -/
theorem C1_counterexample :
    pushChunks 9 [] 0 0 = [] ∧ pullChunks 9 [] 0 0 = [] ∧
    ¬ (pushChunks 9 [] 0 0).countP (fun f => f.doneF) = 1 := by
  have h1 : pushChunks 9 ([] : List Nat) 0 0 = [] := by
    rw [pushChunks]
    simp
  have h2 : pullChunks 9 ([] : List Nat) 0 0 = [] := by
    rw [pullChunks]
    simp
  exact ⟨h1, h2, by simp [h1]⟩

/-- Claim C2, amended: a Request carrying an unrecognized top-level key is
not processed like the request without it — `handle_request` answers it
with the error Response `"unknown field"`, while the same request without
the extra key is dispatched. -/
theorem C2_unknown_key_rejected (k : List Nat) (hk : k.length ≤ 31)
    (h1 : k ≠ bType) (h2 : k ≠ bId) (h3 : k ≠ bCmd) (h4 : k ≠ bArgs) :
    handle_request (reqPwdExtra k) = .sendError 7 "unknown field" ∧
    handle_request reqPwd = .dispatch 7 bPwd [0x80] := by
  constructor
  · have ha : 160 + k.length ≤ 191 := by omega
    have hc : 160 + k.length - 160 = k.length := by omega
    have hd : ∀ X : List Nat, 160 + k.length ≤ (k ++ X).length + 160 := by
      intro X
      simp
      omega
    have he : ∀ X : List Nat, (k ++ X).take k.length = k := by
      intro X
      exact List.take_left k X
    have hf : ∀ X : List Nat, (k ++ X).drop k.length = X := by
      intro X
      exact List.drop_left k X
    simp only [bType, bId, bCmd, bArgs] at h1 h2 h3 h4
    simp only [reqPwdExtra, List.append_assoc, List.cons_append]
    simp [handle_request, mp_read_map, hrLoop, mp_read_str, takeExact,
      mp_read_uint, mp_write_uint, fixstrOf, bType, bId, bCmd, bArgs, bReq,
      bPwd, hk, h1, h2, h3, h4, ha, hc, hd, he, hf]
  · decide

/-- Witness for C2 at the concrete unknown key "x". -/
theorem C2_witness :
    ([0x78] : List Nat).length ≤ 31 ∧
    handle_request (reqPwdExtra [0x78]) = .sendError 7 "unknown field" ∧
    handle_request reqPwd = .dispatch 7 bPwd [0x80] :=
  ⟨by decide,
    C2_unknown_key_rejected [0x78] (by decide) (by decide) (by decide)
      (by decide) (by decide)⟩

/-- Counterexample for C2 as stated: the `pwd` request with the extra
top-level key "x" is answered with an error, not processed identically to
the request without it. -/
theorem C2_counterexample :
    handle_request (reqPwdExtra [0x78]) = .sendError 7 "unknown field" ∧
    handle_request reqPwd = .dispatch 7 bPwd [0x80] ∧
    handle_request (reqPwdExtra [0x78]) ≠ handle_request reqPwd := by
  decide

/-- Claim C3, amended: the message-layer writer `mp_write_uint` emits the
shortest legal MessagePack encoding for every unsigned 64-bit value and its
output decodes back to exactly that value; the response-builder writer
`rb_uint` agrees with it only up to `2 ^ 32 - 1` (it has no uint64 branch;
see the counterexample for larger values). -/
theorem C3_uint_encoders (v : Nat) (hv : v < 2 ^ 64) :
    mp_read_uint (mp_write_uint v) = some (v, []) ∧
    (mp_write_uint v).length = specMinUintLen v ∧
    (v ≤ 0xffffffff → rb_uint v = mp_write_uint v) := by
  refine ⟨?_, mp_write_uint_length v, fun h => rb_uint_eq_mp_write_uint v h⟩
  have h0 := mp_read_uint_write v [] hv
  simpa using h0

/-- Witness for C3 at v = 70000 (a uint32-width value). -/
theorem C3_witness :
    70000 < 2 ^ 64 ∧
    (mp_read_uint (mp_write_uint 70000) = some (70000, []) ∧
     (mp_write_uint 70000).length = specMinUintLen 70000 ∧
     (70000 ≤ 0xffffffff → rb_uint 70000 = mp_write_uint 70000)) :=
  ⟨by decide, C3_uint_encoders 70000 (by decide)⟩

/-- Counterexample for C3 as stated: `rb_uint` encodes `2 ^ 32` as a
uint32 tag over the truncated value 0, which decodes to 0, not `2 ^ 32` —
the response-builder writer does not emit a legal encoding of values above
32 bits. -/
theorem C3_counterexample :
    rb_uint (2 ^ 32) = [0xce, 0, 0, 0, 0] ∧
    mp_read_uint (rb_uint (2 ^ 32)) = some (0, []) ∧ (0 : Nat) ≠ 2 ^ 32 := by
  decide

/-- Claim C4, amended: a frame on which the request decoder fails is not
fatal to the agent session — the agent sends the error Response
`"invalid message format"` and continues processing the following frames;
the session loop handles every frame the transport delivers and ends only
when the transport receive fails.  (No Closed state or `SessionClosed`
error exists in either implementation.) -/
theorem C4_malformed_not_fatal :
    (∀ msg rest, mp_read_map msg = none →
      run_session_loop (msg :: rest)
        = .sendError 0 "invalid message format" :: run_session_loop rest) ∧
    (∀ frames, (run_session_loop frames).length = frames.length) := by
  constructor
  · intro msg rest h
    simp [run_session_loop, handle_request, h]
  · intro frames
    induction frames with
    | nil => rfl
    | cons m rest ih => simp [run_session_loop, ih]

/-- Witness for C4: a frame starting with the unsupported tag 0xff. -/
theorem C4_witness :
    mp_read_map [0xff] = none ∧
    run_session_loop ([0xff] :: [reqPwd])
      = .sendError 0 "invalid message format" :: run_session_loop [reqPwd] ∧
    (run_session_loop [[0xff], reqPwd]).length = [[0xff], reqPwd].length :=
  ⟨by decide, C4_malformed_not_fatal.1 [0xff] [reqPwd] (by decide),
    C4_malformed_not_fatal.2 [[0xff], reqPwd]⟩

/-- Counterexample for C4 as stated: after the malformed frame `[0xff]`
the agent still processes the next frame (a `pwd` request is dispatched),
so the session does not stop at the malformed request. -/
theorem C4_counterexample :
    run_session_loop [[0xff], reqPwd]
      = [.sendError 0 "invalid message format", .dispatch 7 bPwd [0x80]] := by
  decide

/-- Claim C5: the claim holds on the client endpoint (`RecvHello` /
`RecvHelloAck` reject a wrong `type` literal), but the agent endpoint
accepts any handshake payload without validating it (the source carries
`TODO: Validate hello` / `TODO: Validate hello_ack` comments), so a
handshake message with type "bogus" completes the agent handshake in both
modes. -/
theorem C5_handshake_validation_gap :
    do_handshake_bind (some bogusTypeHandshake) = .ok ∧
    do_handshake_connect (some bogusTypeHandshake) = .ok ∧
    RecvHello ⟨"bogus", 1, false⟩ = .error "expected hello, got bogus" ∧
    RecvHelloAck ⟨"bogus", 1, false⟩ = .error "expected hello_ack, got bogus" := by
  refine ⟨rfl, rfl, ?_, ?_⟩
  · simp [RecvHello]
  · simp [RecvHelloAck]

/-- Claim C6, amended: the client's pull performs no length validation at
all — for any declared `size`, any sequence of well-typed Data chunks up to
the first `done = true` frame is accepted, and `Pull` returns the
accumulated bytes together with the declared size and mode, whether the
accumulated length exceeds `size` or falls short of it. -/
theorem C6_pull_unchecked (idv size mode : Nat) (err : String)
    (pre : List DataMsg) (last : DataMsg) (junk : List DataMsg)
    (hpre : ∀ c ∈ pre, c.typeF = "data" ∧ c.doneF = false)
    (ht : last.typeF = "data") (hd : last.doneF = true) :
    clientPull ⟨"resp", idv, true, [("size", size), ("mode", mode)], err⟩
        (pre ++ last :: junk)
      = .ok ((pre.map (fun c => c.dataF)).flatten ++ last.dataF, size, mode) := by
  have hloop := clientPullLoop_spec pre last junk hpre ht hd
  simp [clientPull, respDataLookup, hloop]

/-- Witness for C6: a 5-byte stream against a declared size of 1 is
accepted, and the 5 received bytes are returned with size 1. -/
theorem C6_witness :
    (∀ c ∈ [(⟨"data", 2, 0, [9, 9], false⟩ : DataMsg)],
      c.typeF = "data" ∧ c.doneF = false) ∧
    clientPull ⟨"resp", 2, true, [("size", 1), ("mode", 420)], ""⟩
        ([⟨"data", 2, 0, [9, 9], false⟩] ++ ⟨"data", 2, 1, [9, 9, 9], true⟩ :: [])
      = .ok (([(⟨"data", 2, 0, [9, 9], false⟩ : DataMsg)].map
          (fun c => c.dataF)).flatten ++ [9, 9, 9], 1, 420) :=
  ⟨by decide,
    C6_pull_unchecked 2 1 420 "" [⟨"data", 2, 0, [9, 9], false⟩]
      ⟨"data", 2, 1, [9, 9, 9], true⟩ [] (by decide) (by decide) (by decide)⟩

/-- Counterexample for C6 as stated: a cumulative length of 5 against
`size = 1` (far beyond any reasonable slack) succeeds instead of raising a
protocol error, and a stream ending with `done = true` after 1 byte against
`size = 100` succeeds instead of raising a truncation error. -/
theorem C6_counterexample :
    clientPull ⟨"resp", 2, true, [("size", 1), ("mode", 420)], ""⟩
        [⟨"data", 2, 0, [9, 9, 9, 9, 9], true⟩]
      = .ok ([9, 9, 9, 9, 9], 1, 420) ∧
    clientPull ⟨"resp", 2, true, [("size", 100), ("mode", 420)], ""⟩
        [⟨"data", 2, 0, [7], true⟩]
      = .ok ([7], 100, 420) := by
  constructor <;> simp [clientPull, clientPullLoop, respDataLookup]

/-- Claim C7, amended: the message-layer reader accepts every legal width
(`mp_read_uint`: positive fixint, uint8, uint16, uint32, uint64;
`mp_read_map`: fixmap, map16, map32).  The request-argument parser
`parse_uint_arg` accepts all five unsigned widths for an expected field but
only fixmap and map16 headers — a map32 header fails; and the data-frame
parser of `cmd_push` accepts only fixmap headers — a map16 frame fails. -/
theorem C7_reader_widths :
    (∀ v rest, v ≤ 0x7f → mp_read_uint (v :: rest) = some (v, rest)) ∧
    (∀ v rest, mp_read_uint (0xcc :: v :: rest) = some (v, rest)) ∧
    (∀ v rest, v < 2 ^ 16 →
      mp_read_uint (0xcd :: (u16beBytes v ++ rest)) = some (v, rest)) ∧
    (∀ v rest, v < 2 ^ 32 →
      mp_read_uint (0xce :: (u32beBytes v ++ rest)) = some (v, rest)) ∧
    (∀ v rest, v < 2 ^ 64 →
      mp_read_uint (0xcf :: (u32beBytes (v / 2 ^ 32) ++ u32beBytes v ++ rest))
        = some (v, rest)) ∧
    (∀ c rest, c ≤ 15 → mp_read_map ((0x80 + c) :: rest) = some (c, rest)) ∧
    (∀ c rest, c < 2 ^ 16 →
      mp_read_map (0xde :: (u16beBytes c ++ rest)) = some (c, rest)) ∧
    (∀ c rest, c < 2 ^ 32 →
      mp_read_map (0xdf :: (u32beBytes c ++ rest)) = some (c, rest)) ∧
    (∀ key v, key.length ≤ 31 → v ≤ 0x7f →
      parse_uint_arg (0x81 :: (fixstrOf key ++ [v])) key = some v) ∧
    (∀ key v, key.length ≤ 31 → v ≤ 0xff →
      parse_uint_arg (0x81 :: (fixstrOf key ++ [0xcc, v])) key = some v) ∧
    (∀ key v, key.length ≤ 31 → v < 2 ^ 16 →
      parse_uint_arg (0x81 :: (fixstrOf key ++ (0xcd :: u16beBytes v))) key
        = some v) ∧
    (∀ key v, key.length ≤ 31 → v < 2 ^ 32 →
      parse_uint_arg (0x81 :: (fixstrOf key ++ (0xce :: u32beBytes v))) key
        = some v) ∧
    (∀ key v, key.length ≤ 31 → v < 2 ^ 64 →
      parse_uint_arg
        (0x81 :: (fixstrOf key
          ++ (0xcf :: (u32beBytes (v / 2 ^ 32) ++ u32beBytes v)))) key
        = some v) ∧
    (∀ key v, key.length ≤ 31 → v ≤ 0x7f →
      parse_uint_arg (0xde :: 0 :: 1 :: (fixstrOf key ++ [v])) key = some v) ∧
    (∀ key rest, parse_uint_arg (0xdf :: rest) key = none) ∧
    (∀ rest, parse_data_frame (0xde :: rest) = none) := by
  refine ⟨fun v rest h => mp_read_uint_fixint v rest h,
    fun v rest => mp_read_uint_u8 v rest,
    fun v rest h => mp_read_uint_u16 v rest h,
    fun v rest h => mp_read_uint_u32 v rest h,
    ?_,
    fun c rest h => mp_read_map_fixmap c rest h,
    fun c rest h => mp_read_map_map16 c rest h,
    fun c rest h => mp_read_map_map32 c rest h,
    ?_, ?_, ?_, ?_, ?_, ?_,
    fun key rest => by simp [parse_uint_arg],
    fun rest => by simp [parse_data_frame]⟩
  · intro v rest h
    have h0 := mp_read_uint_u64 v rest h
    simpa [List.append_assoc] using h0
  all_goals
    intro key v hk hv
    have ha : 160 + key.length ≤ 191 := by omega
    have hc : 160 + key.length - 160 = key.length := by omega
    have he : ∀ X : List Nat, (key ++ X).take key.length = key :=
      fun X => List.take_left key X
    have hf : ∀ X : List Nat, (key ++ X).drop key.length = X :=
      fun X => List.drop_left key X
    simp [parse_uint_arg, parse_uint_loop, fixstrOf, u16beBytes, u32beBytes,
      hk, ha, hc, he, hf, hv]
  all_goals omega

/-- Witness for C7: a uint16-encoded `mode` argument is parsed, and a
uint64-tagged value is read by the message-layer reader. -/
theorem C7_witness :
    parse_uint_arg (0x81 :: (fixstrOf bMode ++ (0xcd :: u16beBytes 40000)))
        bMode = some 40000 ∧
    mp_read_uint (0xcf :: (u32beBytes (70000 / 2 ^ 32) ++ u32beBytes 70000 ++ []))
      = some (70000, []) := by
  obtain ⟨-, -, -, -, h64, -, -, -, -, -, h16, -⟩ := C7_reader_widths
  exact ⟨h16 bMode 40000 (by decide) (by decide), h64 70000 [] (by decide)⟩

/-- Counterexample for C7 as stated: the fixmap encoding of a Data frame is
parsed by `cmd_push`, but the byte-identical message re-encoded with a
legal map16 header is rejected — even though the message-layer map reader
decodes both headers to the same count. -/
theorem C7_counterexample :
    parse_data_frame (proto_send_data_payload 2 1 [3] true) = some ([3], true) ∧
    parse_data_frame
        (0xde :: 0 :: 5 :: (proto_send_data_payload 2 1 [3] true).tail) = none ∧
    mp_read_map (0xde :: 0 :: 5 :: (proto_send_data_payload 2 1 [3] true).tail)
      = mp_read_map (proto_send_data_payload 2 1 [3] true) := by
  decide

/-- Claim C8: over a single session the ids emitted by the client facade
are strictly increasing and the first emitted id is 2 (`New` initializes
the counter to 1 and `NextID` pre-increments).  The spec reserves
wrap-around as unreachable, so strict growth is stated below the 32-bit
wrap bound. -/
theorem C8_id_monotone (i j : Nat) (hi : 1 ≤ i) (hij : i < j)
    (hj : j < 2 ^ 32 - 1) :
    clientIDSeq 1 = 2 ∧ clientIDSeq i < clientIDSeq j := by
  refine ⟨by norm_num [clientIDSeq, NextID_step], ?_⟩
  rw [clientIDSeq_closed, clientIDSeq_closed]
  omega

/-- Witness for C8 at requests 1 and 5. -/
theorem C8_witness :
    (1 ≤ 1 ∧ 1 < 5 ∧ 5 < 2 ^ 32 - 1) ∧
    clientIDSeq 1 = 2 ∧ clientIDSeq 1 < clientIDSeq 5 :=
  ⟨⟨by decide, by decide, by decide⟩,
    C8_id_monotone 1 5 (by decide) (by decide) (by decide)⟩

/-- Claim C9: every failure path of `cmd_cd` (nonexistent target, target
not a directory, or `realpath` failure) answers with an error Response
carrying a non-empty message, leaves the agent's cwd unchanged, and a
subsequent `pwd` still reports the prior directory.  (`strerror` never
returns an empty string, stated as the hypothesis on `strerrorMsg`.) -/
theorem C9_cd_failure (fs : FileSys) (conn : ConnState) (id id2 : Nat)
    (p : String)
    (hfail : fs.pathExists (path_resolve conn.cwd p) = false ∨
             fs.isDir (path_resolve conn.cwd p) = false ∨
             fs.realpathFn (path_resolve conn.cwd p) = none)
    (hstr : fs.strerrorMsg ≠ "") :
    (∃ m, (cmd_cd fs conn id (some p)).1 = .err id m ∧ m ≠ "") ∧
    (cmd_cd fs conn id (some p)).2 = conn ∧
    cmd_pwd (cmd_cd fs conn id (some p)).2 id2 = .okPath id2 conn.cwd := by
  cases hpe : fs.pathExists (path_resolve conn.cwd p) with
  | false =>
    refine ⟨⟨"no such directory", ?_, by decide⟩, ?_, ?_⟩ <;>
      simp [cmd_cd, cmd_pwd, hpe]
  | true =>
    cases hdir : fs.isDir (path_resolve conn.cwd p) with
    | false =>
      refine ⟨⟨"not a directory", ?_, by decide⟩, ?_, ?_⟩ <;>
        simp [cmd_cd, cmd_pwd, hpe, hdir]
    | true =>
      cases hrp : fs.realpathFn (path_resolve conn.cwd p) with
      | none =>
        refine ⟨⟨fs.strerrorMsg, ?_, hstr⟩, ?_, ?_⟩ <;>
          simp [cmd_cd, cmd_pwd, hpe, hdir, hrp]
      | some rp =>
        rcases hfail with h | h | h <;> simp_all

/-- Witness for C9: `cd /does/not/exist` against the all-failing
filesystem, from cwd `/tmp`. -/
theorem C9_witness :
    (testFS.pathExists (path_resolve "/tmp" "/does/not/exist") = false ∨
     testFS.isDir (path_resolve "/tmp" "/does/not/exist") = false ∨
     testFS.realpathFn (path_resolve "/tmp" "/does/not/exist") = none) ∧
    ((∃ m, (cmd_cd testFS ⟨"/tmp"⟩ 3 (some "/does/not/exist")).1 = .err 3 m
        ∧ m ≠ "") ∧
     (cmd_cd testFS ⟨"/tmp"⟩ 3 (some "/does/not/exist")).2 = ⟨"/tmp"⟩ ∧
     cmd_pwd (cmd_cd testFS ⟨"/tmp"⟩ 3 (some "/does/not/exist")).2 4
       = .okPath 4 "/tmp") :=
  ⟨Or.inl rfl,
    C9_cd_failure testFS ⟨"/tmp"⟩ 3 4 "/does/not/exist" (Or.inl rfl)
      (by decide)⟩

/-- Claim C10: in the agent's push receive loop, the bytes written to the
destination are exactly the concatenation of the `data` fields of the
received frames, the loop terminates precisely at the first frame with
`done = true` (frames after it are never consumed, and the declared `size`
argument does not enter the loop at all), and a missing `mode` argument
leaves the default 0644. -/
theorem C10_push_writes (pre chunks : List (List Nat)) (lastf lastc : List Nat)
    (junk : List (List Nat)) (args : List Nat)
    (hmap : pre.map parse_data_frame = chunks.map (fun c => some (c, false)))
    (hlast : parse_data_frame lastf = some (lastc, true))
    (hmode : parse_uint_arg args bMode = none) :
    cmd_push_loop (pre ++ lastf :: junk) [] = .success (chunks.flatten ++ lastc) ∧
    cmd_push_mode args = 0o644 := by
  constructor
  · have h0 := cmd_push_loop_spec pre chunks lastf lastc junk [] hmap hlast
    simpa using h0
  · simp [cmd_push_mode, hmode]

/-- Witness for C10: two frames built by the Data-frame encoder, carrying
[1, 2] and then [3] with done, against an args map with no `mode` key. -/
theorem C10_witness :
    ([proto_send_data_payload 2 0 [1, 2] false].map parse_data_frame
      = [[1, 2]].map (fun c => some (c, false))) ∧
    parse_data_frame (proto_send_data_payload 2 1 [3] true) = some ([3], true) ∧
    (cmd_push_loop
        ([proto_send_data_payload 2 0 [1, 2] false]
          ++ proto_send_data_payload 2 1 [3] true :: []) []
      = .success ([[1, 2]].flatten ++ [3]) ∧
     cmd_push_mode [0x80] = 0o644) :=
  ⟨by decide, by decide,
    C10_push_writes [proto_send_data_payload 2 0 [1, 2] false] [[1, 2]]
      (proto_send_data_payload 2 1 [3] true) [3] [] [0x80] (by decide)
      (by decide) (by decide)⟩

end Embbridge
